import Mathlib

/-!
# Verification of the dhakapost feed pipeline

Shallow embedding of the two Python sources of the repository:

* `render_and_extract.py` — balanced-object locator, JS-object sanitizer,
  JSON-like extraction chain, item normalizer, feed merger, `build_rss`.
* `generate_rss.py` — `extract_articles`, Bangla date conversion,
  XML escaping and the RSS serializer, `update_feed`.

Python values are modelled by `PyVal`; Python strings by Lean `String`
(working on `String.data : List Char` internally).  Standard-library
behaviour (`str.find`, `str.strip`, `str.split`, `int`, `json.loads`,
`json.dumps`, `html.escape`, the concrete regexes used by the source) is
modelled by explicit executable functions, each one kept next to a comment
naming the Python construct it translates.
-/

namespace DP

/-! ## Python string primitives -/

/-- The whitespace characters recognised by `str.strip` / `str.split` /
`int()` and matched by the regex class `\s` (the `re` module's Unicode
default for `str` patterns; the three notions coincide): the six ASCII
whitespace characters, the information separators U+001C–U+001F, NEL
(U+0085), NBSP (U+00A0), and the Unicode space separators U+1680,
U+2000–U+200A, U+2028, U+2029, U+202F, U+205F, U+3000. -/
def pyIsSpace (c : Char) : Bool :=
  c = ' ' || c = '\t' || c = '\n' || c = '\r' || c = '\x0b' || c = '\x0c' ||
  (28 ≤ c.toNat && c.toNat ≤ 31) || c.toNat = 0x85 || c.toNat = 0xa0 ||
  c.toNat = 0x1680 || (0x2000 ≤ c.toNat && c.toNat ≤ 0x200a) ||
  c.toNat = 0x2028 || c.toNat = 0x2029 || c.toNat = 0x202f ||
  c.toNat = 0x205f || c.toNat = 0x3000

/-- `list.startswith`-style prefix test on character lists. -/
def startsWithL : List Char → List Char → Bool
  | _, [] => true
  | [], _ :: _ => false
  | c :: cs, p :: ps => c = p && startsWithL cs ps

/-- `str.find(needle)`: index of the leftmost occurrence. -/
def pyFindL (hay needle : List Char) : Option Nat :=
  if startsWithL hay needle then some 0
  else
    match hay with
    | [] => none
    | _ :: rest => (pyFindL rest needle).map (· + 1)

/-- `str.find(needle)` on strings. -/
def pyFind (hay needle : String) : Option Nat :=
  pyFindL hay.data needle.data

/-- `str.find(needle, start)`: search from a start offset. -/
def pyFindFrom (hay needle : String) (start : Nat) : Option Nat :=
  (pyFindL (hay.data.drop start) needle.data).map (· + start)

/-- Whether `needle` occurs somewhere in `hay`. -/
def hasSub (hay needle : List Char) : Bool :=
  (pyFindL hay needle).isSome

/-- `str.strip()` on a character list. -/
def pyStripL (cs : List Char) : List Char :=
  ((cs.dropWhile pyIsSpace).reverse.dropWhile pyIsSpace).reverse

/-- `str.strip()`. -/
def pyStrip (s : String) : String :=
  String.mk (pyStripL s.data)

/-- `str.split(sep)` for a one-character separator: keeps empty pieces,
`"".split(sep) = [""]`. -/
def pySplitChar (sep : Char) : List Char → List (List Char)
  | [] => [[]]
  | c :: rest =>
    match pySplitChar sep rest with
    | [] => [[]]
    | h :: t => if c = sep then [] :: h :: t else (c :: h) :: t

/-- `str.split()` with no argument: split on whitespace runs, dropping
empty pieces. -/
def pySplitWs (cs : List Char) : List (List Char) :=
  let step := fun (c : Char) (st : List Char × List (List Char)) =>
    if pyIsSpace c then ([], if st.1 = [] then st.2 else st.1 :: st.2)
    else (c :: st.1, st.2)
  let st := cs.foldr step ([], [])
  if st.1 = [] then st.2 else st.1 :: st.2

/-- Digit-run value: all characters must be ASCII digits and there must be
at least one. -/
def digitsVal : List Char → Option Nat
  | [] => none
  | cs =>
    if cs.all (fun c => '0' ≤ c && c ≤ '9') then
      some (cs.foldl (fun acc c => acc * 10 + (c.toNat - '0'.toNat)) 0)
    else none

/-- Python `int(s)`: surrounding whitespace, optional sign, decimal digits;
anything else raises `ValueError` (modelled as `none`). -/
def pyInt (s : String) : Option Int :=
  match pyStripL s.data with
  | '-' :: ds => (digitsVal ds).map (fun n => -(n : Int))
  | '+' :: ds => (digitsVal ds).map (fun n => (n : Int))
  | ds => (digitsVal ds).map (fun n => (n : Int))

/-! ## Python values -/

/-- A Python value, as far as the pipeline manipulates them.  JSON
non-integer numbers are kept exactly as `mant * 10 ^ exp` decimals
(`float`); no claim exercises float semantics. -/
inductive PyVal where
  | none
  | bool (b : Bool)
  | int (n : Int)
  | float (mant : Int) (exp : Int)
  | str (s : String)
  | list (xs : List PyVal)
  | dict (fields : List (String × PyVal))

/-- Python truthiness (`bool(v)`). -/
def pyTruthy : PyVal → Bool
  | .none => false
  | .bool b => b
  | .int n => n != 0
  | .float m _ => m != 0
  | .str s => s != ""
  | .list xs => !xs.isEmpty
  | .dict d => !d.isEmpty

/-- Python `str(v)`.  Lists/dicts never reach `str()` in any claim; their
repr is modelled coarsely. -/
def pyStr : PyVal → String
  | .none => "None"
  | .bool true => "True"
  | .bool false => "False"
  | .int n => toString n
  | .float m e => toString m ++ "e" ++ toString e
  | .str s => s
  | .list _ => "[...]"
  | .dict _ => "\x7b...\x7d"

/-- `dict.get(k)`: `None` when the key is absent. -/
def pyGet (d : List (String × PyVal)) (k : String) : PyVal :=
  match d.find? (fun p => p.1 = k) with
  | some p => p.2
  | none => .none

/-- `dict.get(k, default)`. -/
def pyGetD (d : List (String × PyVal)) (k : String) (dflt : PyVal) : PyVal :=
  match d.find? (fun p => p.1 = k) with
  | some p => p.2
  | none => dflt

/-- Python `a or b` (value-returning). -/
def pyOr (a b : PyVal) : PyVal :=
  if pyTruthy a then a else b

/-- Dict insertion with Python semantics: an existing key keeps its
position and gets the new value. -/
def dictInsert (d : List (String × PyVal)) (k : String) (v : PyVal) :
    List (String × PyVal) :=
  match d with
  | [] => [(k, v)]
  | (k', v') :: rest =>
    if k' = k then (k', v) :: rest else (k', v') :: dictInsert rest k v

/-! ## `find_balanced_object` (render_and_extract.py, lines 63-89)

The scanning loop, translated to a single recursion over the remaining
characters.  `depth` is an integer (Python ints are unbounded and signed),
`inStr` holds the active quote character while inside a quoted run, and
`consumed` counts processed characters so that the span `s[start:i+1]` can
be recovered. -/

def fbScan : Int → Option Char → Nat → List Char → Option Nat
  | _, _, _, [] => Option.none
  | depth, Option.some q, consumed, c :: rest =>
    if c = '\\' then
      match rest with
      | [] => Option.none
      | _ :: rest2 => fbScan depth (Option.some q) (consumed + 2) rest2
    else if c = q then fbScan depth Option.none (consumed + 1) rest
    else fbScan depth (Option.some q) (consumed + 1) rest
  | depth, Option.none, consumed, c :: rest =>
    if c = '"' ∨ c = '\'' then fbScan depth (Option.some c) (consumed + 1) rest
    else if c = '{' then fbScan (depth + 1) Option.none (consumed + 1) rest
    else if c = '}' then
      if depth = 1 then Option.some (consumed + 1)
      else fbScan (depth - 1) Option.none (consumed + 1) rest
    else fbScan depth Option.none (consumed + 1) rest

/-- `find_balanced_object(s, start_idx)`: `None` unless `s[start_idx]`
exists and is `{`; otherwise the balanced span `s[start_idx:i+1]`. -/
def find_balanced_object (s : String) (start_idx : Nat) : Option String :=
  match s.data.drop start_idx with
  | [] => Option.none
  | c :: _ =>
    if c = '{' then
      (fbScan 0 Option.none 0 (s.data.drop start_idx)).map
        (fun n => String.mk ((s.data.drop start_idx).take n))
    else Option.none

example : find_balanced_object "x\x7b\"a\": \"x\x7dy\"\x7dtail" 1 = some "\x7b\"a\": \"x\x7dy\"\x7d" := by
  decide

example : find_balanced_object "\x7b'a': \x7b\"b\": 1\x7d\x7d rest" 0 = some "\x7b'a': \x7b\"b\": 1\x7d\x7d" := by
  decide

example : find_balanced_object "\x7bunclosed" 0 = Option.none := by decide

/-! ## `sanitize_js_object` (render_and_extract.py, lines 91-105)

Four sequential whole-string passes, each translating one `re.sub`:

1. `re.sub(r"/\*[\s\S]*?\*/", "", raw)` — leftmost-shortest block comments;
2. `re.sub(r"//[^\n\r]*", "", ...)` — line comments up to (not including)
   the next `\n`/`\r`;
3. `re.sub(r",\s*([}\]])", r"\1", ...)` — commas before a closing bracket;
4. `re.sub(r"'([^'\\]*(?:\\.[^'\\]*)*)'", json.dumps(group1), ...)` —
   single-quoted runs re-encoded with `json.dumps` (the raw inner text,
   escapes left as-is, per the source comment). -/

/-- Rest of the input after the nearest `*/`, if any. -/
def findBlockClose : List Char → Option (List Char)
  | [] => Option.none
  | [_] => Option.none
  | a :: b :: rest =>
    if a = '*' ∧ b = '/' then some rest
    else findBlockClose (b :: rest)

/-! The rewriting passes shrink their input by a non-structural amount at
each step, so each is written over a fuel counter (consumed once per
match) with fuel instantiated to the input length; every recursive call
is on a strictly shorter list, so the fuel never runs out on the lists
the wrappers pass in, and the `0` case returns the input unchanged. -/

/-- Pass 1 (fuelled): remove `/* ... */` block comments (leftmost,
shortest).  A `/*` with no later `*/` matches nothing — and then no later
`/*` can match either, so the rest is returned unchanged. -/
def removeBlockCommentsF : Nat → List Char → List Char
  | 0, cs => cs
  | _ + 1, [] => []
  | _ + 1, [c] => [c]
  | fuel + 1, a :: b :: rest =>
    if a = '/' ∧ b = '*' then
      match findBlockClose rest with
      | some rest2 => removeBlockCommentsF fuel rest2
      | none => a :: b :: rest
    else a :: removeBlockCommentsF fuel (b :: rest)

def removeBlockComments (cs : List Char) : List Char :=
  removeBlockCommentsF cs.length cs

/-- Suffix starting at the next `\n` or `\r` (kept), used by pass 2. -/
def dropUntilNl : List Char → List Char
  | [] => []
  | c :: rest => if c = '\n' ∨ c = '\r' then c :: rest else dropUntilNl rest

/-- Pass 2 (fuelled): remove `//` line comments (everything up to the next
newline or carriage return). -/
def removeLineCommentsF : Nat → List Char → List Char
  | 0, cs => cs
  | _ + 1, [] => []
  | _ + 1, [c] => [c]
  | fuel + 1, a :: b :: rest =>
    if a = '/' ∧ b = '/' then removeLineCommentsF fuel (dropUntilNl rest)
    else a :: removeLineCommentsF fuel (b :: rest)

def removeLineComments (cs : List Char) : List Char :=
  removeLineCommentsF cs.length cs

/-- Pass 3 (fuelled): rewrite `,\s*}` / `,\s*]` to the bare closing
bracket. -/
def removeTrailingCommasF : Nat → List Char → List Char
  | 0, cs => cs
  | _ + 1, [] => []
  | fuel + 1, c :: rest =>
    if c = ',' then
      match rest.dropWhile pyIsSpace with
      | b :: rest2 =>
        if b = '}' ∨ b = ']' then b :: removeTrailingCommasF fuel rest2
        else c :: removeTrailingCommasF fuel rest
      | [] => c :: removeTrailingCommasF fuel rest
    else c :: removeTrailingCommasF fuel rest

def removeTrailingCommas (cs : List Char) : List Char :=
  removeTrailingCommasF cs.length cs

/-- One hex digit, lowercase, as `json.dumps` prints them. -/
def hexDigit (n : Nat) : Char :=
  if n < 10 then Char.ofNat ('0'.toNat + n) else Char.ofNat ('a'.toNat + n - 10)

/-- Four hex digits of a scalar below 0x10000. -/
def hex4 (n : Nat) : List Char :=
  [hexDigit (n / 4096 % 16), hexDigit (n / 256 % 16), hexDigit (n / 16 % 16),
   hexDigit (n % 16)]

/-- `json.dumps` escaping of one character (`ensure_ascii=True` default):
ASCII printables pass through, the two-character escapes for the JSON
specials, `\uXXXX` for other controls and all non-ASCII (surrogate pairs
above 0xFFFF). -/
def jsonEscChar (c : Char) : List Char :=
  if c = '"' then ['\\', '"']
  else if c = '\\' then ['\\', '\\']
  else if c = '\n' then ['\\', 'n']
  else if c = '\r' then ['\\', 'r']
  else if c = '\t' then ['\\', 't']
  else if c = '\x08' then ['\\', 'b']
  else if c = '\x0c' then ['\\', 'f']
  else if c.toNat < 0x20 then '\\' :: 'u' :: hex4 c.toNat
  else if c.toNat < 0x7f then [c]
  else if c.toNat < 0x10000 then '\\' :: 'u' :: hex4 c.toNat
  else
    ('\\' :: 'u' :: hex4 (0xd800 + (c.toNat - 0x10000) / 1024)) ++
    ('\\' :: 'u' :: hex4 (0xdc00 + (c.toNat - 0x10000) % 1024))

/-- `json.dumps` of a string: double quotes around the escaped characters. -/
def jsonDumpsStrL (cs : List Char) : List Char :=
  '"' :: cs.flatMap jsonEscChar ++ ['"']

/-- Body of a single-quoted run for pass 4, mirroring
`[^'\\]*(?:\\.[^'\\]*)*'`: returns the raw inner text and the rest after
the closing quote, or `none` when the regex cannot match at this opening
quote (unterminated, or a backslash before `\n`/end, which `\\.` cannot
match). -/
def sqBody : List Char → Option (List Char × List Char)
  | [] => Option.none
  | c :: rest =>
    if c = '\'' then some ([], rest)
    else if c = '\\' then
      match rest with
      | [] => Option.none
      | d :: rest2 =>
        if d = '\n' then Option.none
        else (sqBody rest2).map (fun p => (c :: d :: p.1, p.2))
    else (sqBody rest).map (fun p => (c :: p.1, p.2))

/-- Pass 4 (fuelled): convert single-quoted runs.  A failed match at an
opening quote leaves that quote and rescans from the next character, as
`re.sub` does. -/
def convertSingleQuotesF : Nat → List Char → List Char
  | 0, cs => cs
  | _ + 1, [] => []
  | fuel + 1, c :: rest =>
    if c = '\'' then
      match sqBody rest with
      | some (inner, rest2) =>
        jsonDumpsStrL inner ++ convertSingleQuotesF fuel rest2
      | none => c :: convertSingleQuotesF fuel rest
    else c :: convertSingleQuotesF fuel rest

def convertSingleQuotes (cs : List Char) : List Char :=
  convertSingleQuotesF cs.length cs

/-- `sanitize_js_object(raw)`: the four passes in source order. -/
def sanitize_js_object (raw : String) : String :=
  String.mk (convertSingleQuotes (removeTrailingCommas
    (removeLineComments (removeBlockComments raw.data))))

example : sanitize_js_object "\x7b'a': 1,\x7d" = "\x7b\"a\": 1\x7d" := by decide

example :
    sanitize_js_object "\x7b/* c */\"a\" : 2, // x\n\x7d" = "\x7b\"a\" : 2\x7d" := by
  decide

/-! ## Identity of the sanitizer on pattern-free text (claims C2 and C7)

Each rewriting pass is the identity on text in which its trigger pattern
does not occur anywhere; `sanitize_js_object` is then the identity. -/

theorem hasSub_cons (c : Char) (t needle : List Char) :
    hasSub (c :: t) needle = (startsWithL (c :: t) needle || hasSub t needle) := by
  by_cases hs : startsWithL (c :: t) needle = true
  · have he : pyFindL (c :: t) needle = some 0 := by
      rw [pyFindL, if_pos hs]
    simp [hasSub, he, hs]
  · have he : pyFindL (c :: t) needle = (pyFindL t needle).map (· + 1) := by
      rw [pyFindL, if_neg hs]
    rw [Bool.not_eq_true] at hs
    simp [hasSub, he, hs, Option.isSome_map]

theorem removeBlockCommentsF_id :
    ∀ fuel cs, hasSub cs ['/', '*'] = false → removeBlockCommentsF fuel cs = cs := by
  intro fuel
  induction fuel with
  | zero => intro cs h; rfl
  | succ n ih =>
    intro cs h
    match cs with
    | [] => rfl
    | [c] => rfl
    | a :: b :: rest =>
      rw [hasSub_cons] at h
      simp only [Bool.or_eq_false_iff] at h
      obtain ⟨h1, h2⟩ := h
      have hab : ¬ (a = '/' ∧ b = '*') := by
        rintro ⟨rfl, rfl⟩
        simp [startsWithL] at h1
      rw [removeBlockCommentsF, if_neg hab, ih (b :: rest) h2]

theorem removeLineCommentsF_id :
    ∀ fuel cs, hasSub cs ['/', '/'] = false → removeLineCommentsF fuel cs = cs := by
  intro fuel
  induction fuel with
  | zero => intro cs h; rfl
  | succ n ih =>
    intro cs h
    match cs with
    | [] => rfl
    | [c] => rfl
    | a :: b :: rest =>
      rw [hasSub_cons] at h
      simp only [Bool.or_eq_false_iff] at h
      obtain ⟨h1, h2⟩ := h
      have hab : ¬ (a = '/' ∧ b = '/') := by
        rintro ⟨rfl, rfl⟩
        simp [startsWithL] at h1
      rw [removeLineCommentsF, if_neg hab, ih (b :: rest) h2]

/-- A comma followed (through whitespace) by a closing `}` or `]`
somewhere in the text: the pattern of the trailing-comma rewrite. -/
def hasTrailPat : List Char → Bool
  | [] => false
  | c :: rest =>
    (c = ',' &&
      (match rest.dropWhile pyIsSpace with
       | b :: _ => b = '}' ∨ b = ']'
       | [] => false)) || hasTrailPat rest

theorem removeTrailingCommasF_id :
    ∀ fuel cs, hasTrailPat cs = false → removeTrailingCommasF fuel cs = cs := by
  intro fuel
  induction fuel with
  | zero => intro cs h; rfl
  | succ n ih =>
    intro cs h
    match cs with
    | [] => rfl
    | c :: rest =>
      rw [hasTrailPat] at h
      simp only [Bool.or_eq_false_iff, Bool.and_eq_false_iff] at h
      obtain ⟨h1, h2⟩ := h
      by_cases hc : c = ','
      · rcases h1 with h1 | h1
        · simp [hc] at h1
        · rw [removeTrailingCommasF, if_pos hc]
          rcases hdw : rest.dropWhile pyIsSpace with _ | ⟨b, rest2⟩
          · show c :: removeTrailingCommasF n rest = c :: rest
            rw [ih rest h2]
          · rw [hdw] at h1
            have hb : ¬ (b = '}' ∨ b = ']') := by
              simpa using h1
            show (if b = '}' ∨ b = ']' then b :: removeTrailingCommasF n rest2
              else c :: removeTrailingCommasF n rest) = c :: rest
            rw [if_neg hb, ih rest h2]
      · rw [removeTrailingCommasF, if_neg hc, ih rest h2]

theorem convertSingleQuotesF_id :
    ∀ fuel cs, cs.contains '\'' = false → convertSingleQuotesF fuel cs = cs := by
  intro fuel
  induction fuel with
  | zero => intro cs h; rfl
  | succ n ih =>
    intro cs h
    match cs with
    | [] => rfl
    | c :: rest =>
      simp only [List.contains_cons, Bool.or_eq_false_iff] at h
      obtain ⟨h1, h2⟩ := h
      have hc : ¬ c = '\'' := by
        intro hcc
        subst hcc
        simp at h1
      rw [convertSingleQuotesF, if_neg hc, ih rest h2]

theorem sanitize_js_object_id (s : String)
    (h1 : hasSub s.data ['/', '*'] = false)
    (h2 : hasSub s.data ['/', '/'] = false)
    (h3 : hasTrailPat s.data = false)
    (h4 : s.data.contains '\'' = false) :
    sanitize_js_object s = s := by
  unfold sanitize_js_object removeBlockComments removeLineComments
    removeTrailingCommas convertSingleQuotes
  rw [removeBlockCommentsF_id _ _ h1]
  rw [removeLineCommentsF_id _ _ h2]
  rw [removeTrailingCommasF_id _ _ h3]
  rw [convertSingleQuotesF_id _ _ h4]


/-! ## `json.loads` (Python stdlib, strict mode)

Executable model of the strict JSON decoder the sources call.  Values
parse to `PyVal`.  Points of deliberate coarseness (none exercised by any
claim): non-integer numbers become exact `float mant exp` decimals;
`NaN`/`Infinity` (accepted by Python) become placeholder floats; a lone
UTF-16 surrogate from a `\uXXXX` escape (representable in a Python `str`,
not in a Lean `Char`) becomes U+FFFD. -/

/-- JSON inter-token whitespace. -/
def jsonWs : List Char → List Char
  | [] => []
  | c :: rest =>
    if c = ' ' ∨ c = '\t' ∨ c = '\n' ∨ c = '\r' then jsonWs rest else c :: rest

def jsonIsDigit (c : Char) : Bool := '0' ≤ c && c ≤ '9'

def digitsFold (ds : List Char) : Nat :=
  ds.foldl (fun acc c => acc * 10 + (c.toNat - '0'.toNat)) 0

def jsonHexVal (c : Char) : Option Nat :=
  if '0' ≤ c ∧ c ≤ '9' then some (c.toNat - '0'.toNat)
  else if 'a' ≤ c ∧ c ≤ 'f' then some (c.toNat - 'a'.toNat + 10)
  else if 'A' ≤ c ∧ c ≤ 'F' then some (c.toNat - 'A'.toNat + 10)
  else none

def hex4val (a b c d : Char) : Option Nat :=
  match jsonHexVal a, jsonHexVal b, jsonHexVal c, jsonHexVal d with
  | some va, some vb, some vc, some vd => some (((va * 16 + vb) * 16 + vc) * 16 + vd)
  | _, _, _, _ => Option.none

/-- String body after the opening quote (strict: unescaped controls are
errors).  Surrogate pairs from consecutive `\uXXXX` escapes combine.
Fuelled: the lone-high-surrogate case resumes at the following escape
without consuming it, so fuel (input length + 1 at the call sites)
provides the measure. -/
def jsonParseStrAux : Nat → List Char → List Char → Option (String × List Char)
  | 0, _, _ => Option.none
  | _ + 1, _, [] => Option.none
  | _ + 1, acc, '"' :: rest => some (String.mk acc.reverse, rest)
  | fuel + 1, acc, '\\' :: 'u' :: a :: b :: c :: d :: rest =>
    (match hex4val a b c d with
     | Option.none => Option.none
     | some n =>
       if 0xD800 ≤ n ∧ n ≤ 0xDBFF then
         match rest with
         | '\\' :: 'u' :: a2 :: b2 :: c2 :: d2 :: rest2 =>
           (match hex4val a2 b2 c2 d2 with
            | some m =>
              if 0xDC00 ≤ m ∧ m ≤ 0xDFFF then
                jsonParseStrAux fuel
                  (Char.ofNat (0x10000 + (n - 0xD800) * 1024 + (m - 0xDC00)) :: acc)
                  rest2
              else
                jsonParseStrAux fuel ('\uFFFD' :: acc)
                  ('\\' :: 'u' :: a2 :: b2 :: c2 :: d2 :: rest2)
            | Option.none =>
              jsonParseStrAux fuel ('\uFFFD' :: acc)
                ('\\' :: 'u' :: a2 :: b2 :: c2 :: d2 :: rest2))
         | _ => jsonParseStrAux fuel ('\uFFFD' :: acc) rest
       else if 0xDC00 ≤ n ∧ n ≤ 0xDFFF then
         jsonParseStrAux fuel ('\uFFFD' :: acc) rest
       else jsonParseStrAux fuel (Char.ofNat n :: acc) rest)
  | fuel + 1, acc, '\\' :: e :: rest =>
    (match e with
     | '"' => jsonParseStrAux fuel ('"' :: acc) rest
     | '\\' => jsonParseStrAux fuel ('\\' :: acc) rest
     | '/' => jsonParseStrAux fuel ('/' :: acc) rest
     | 'b' => jsonParseStrAux fuel ('\x08' :: acc) rest
     | 'f' => jsonParseStrAux fuel ('\x0c' :: acc) rest
     | 'n' => jsonParseStrAux fuel ('\n' :: acc) rest
     | 'r' => jsonParseStrAux fuel ('\r' :: acc) rest
     | 't' => jsonParseStrAux fuel ('\t' :: acc) rest
     | _ => Option.none)
  | fuel + 1, acc, c :: rest =>
    if c.toNat < 0x20 then Option.none else jsonParseStrAux fuel (c :: acc) rest

/-- String body with fuel pre-instantiated from the input length. -/
def jsonParseStr (acc cs : List Char) : Option (String × List Char) :=
  jsonParseStrAux (cs.length + 1) acc cs

/-- A JSON number (Python `NUMBER_RE`): optional minus, `0` or a nonzero
digit run, optional fraction, optional exponent; fraction/exponent force
a float.  Like the Python scanner, it consumes the longest match and
leaves delimiter errors (e.g. `01`) to the caller. -/
def jsonNumber (cs : List Char) : Option (PyVal × List Char) :=
  let signed : Bool × List Char :=
    match cs with
    | '-' :: r => (true, r)
    | _ => (false, cs)
  let intPart : Option (Nat × List Char) :=
    match signed.2 with
    | '0' :: r => some (0, r)
    | c :: r =>
      if '1' ≤ c ∧ c ≤ '9' then
        some (digitsFold (c :: r.takeWhile jsonIsDigit), r.dropWhile jsonIsDigit)
      else Option.none
    | [] => Option.none
  match intPart with
  | Option.none => Option.none
  | some (iv, r1) =>
    let fracPart : List Char × List Char :=
      match r1 with
      | '.' :: r =>
        if (r.takeWhile jsonIsDigit).isEmpty then ([], r1)
        else (r.takeWhile jsonIsDigit, r.dropWhile jsonIsDigit)
      | _ => ([], r1)
    let fracDs := fracPart.1
    let expPart : Option Int × List Char :=
      match fracPart.2 with
      | e :: r =>
        if e = 'e' ∨ e = 'E' then
          match r with
          | '-' :: r2 =>
            if (r2.takeWhile jsonIsDigit).isEmpty then (Option.none, fracPart.2)
            else (some (-(digitsFold (r2.takeWhile jsonIsDigit) : Int)),
                  r2.dropWhile jsonIsDigit)
          | '+' :: r2 =>
            if (r2.takeWhile jsonIsDigit).isEmpty then (Option.none, fracPart.2)
            else (some (digitsFold (r2.takeWhile jsonIsDigit) : Int),
                  r2.dropWhile jsonIsDigit)
          | r2 =>
            if (r2.takeWhile jsonIsDigit).isEmpty then (Option.none, fracPart.2)
            else (some (digitsFold (r2.takeWhile jsonIsDigit) : Int),
                  r2.dropWhile jsonIsDigit)
        else (Option.none, fracPart.2)
      | [] => (Option.none, fracPart.2)
    match fracDs, expPart.1 with
    | [], Option.none =>
      some (PyVal.int (if signed.1 then -(iv : Int) else (iv : Int)), r1)
    | _, _ =>
      let mant0 : Int := iv * 10 ^ fracDs.length + digitsFold fracDs
      let mant : Int := if signed.1 then -mant0 else mant0
      let e10 : Int := (expPart.1.getD 0) - fracDs.length
      some (PyVal.float mant e10, expPart.2)

mutual

/-- A JSON value, positioned at its first character (no leading
whitespace).  `fuel` dominates the remaining input length. -/
def jsonValue : Nat → List Char → Option (PyVal × List Char)
  | 0, _ => Option.none
  | fuel + 1, cs =>
    match cs with
    | '{' :: rest =>
      (match jsonWs rest with
       | '}' :: r2 => some (PyVal.dict [], r2)
       | r2 => jsonObjBody fuel r2 [])
    | '[' :: rest =>
      (match jsonWs rest with
       | ']' :: r2 => some (PyVal.list [], r2)
       | r2 => jsonArrBody fuel r2 [])
    | '"' :: rest => (jsonParseStr [] rest).map (fun p => (PyVal.str p.1, p.2))
    | 't' :: 'r' :: 'u' :: 'e' :: rest => some (PyVal.bool true, rest)
    | 'f' :: 'a' :: 'l' :: 's' :: 'e' :: rest => some (PyVal.bool false, rest)
    | 'n' :: 'u' :: 'l' :: 'l' :: rest => some (PyVal.none, rest)
    | 'N' :: 'a' :: 'N' :: rest => some (PyVal.float 1 0, rest)
    | 'I' :: 'n' :: 'f' :: 'i' :: 'n' :: 'i' :: 't' :: 'y' :: rest =>
      some (PyVal.float 1 9999, rest)
    | '-' :: 'I' :: 'n' :: 'f' :: 'i' :: 'n' :: 'i' :: 't' :: 'y' :: rest =>
      some (PyVal.float (-1) 9999, rest)
    | _ => jsonNumber cs

/-- Members of an object, positioned at a key's opening quote; later
duplicate keys override earlier ones in place, as in a Python dict. -/
def jsonObjBody :
    Nat → List Char → List (String × PyVal) → Option (PyVal × List Char)
  | 0, _, _ => Option.none
  | fuel + 1, cs, acc =>
    match cs with
    | '"' :: rest =>
      (match jsonParseStr [] rest with
       | Option.none => Option.none
       | some (k, r1) =>
         match jsonWs r1 with
         | ':' :: r2 =>
           (match jsonValue fuel (jsonWs r2) with
            | Option.none => Option.none
            | some (v, r3) =>
              match jsonWs r3 with
              | ',' :: r4 => jsonObjBody fuel (jsonWs r4) (dictInsert acc k v)
              | '}' :: r4 => some (PyVal.dict (dictInsert acc k v), r4)
              | _ => Option.none)
         | _ => Option.none)
    | _ => Option.none

/-- Elements of an array, positioned at an element's first character. -/
def jsonArrBody : Nat → List Char → List PyVal → Option (PyVal × List Char)
  | 0, _, _ => Option.none
  | fuel + 1, cs, acc =>
    match jsonValue fuel cs with
    | Option.none => Option.none
    | some (v, r1) =>
      match jsonWs r1 with
      | ',' :: r2 => jsonArrBody fuel (jsonWs r2) (v :: acc)
      | ']' :: r2 => some (PyVal.list (v :: acc).reverse, r2)
      | _ => Option.none

end

/-- `json.loads(s)`: a single value with only whitespace around it. -/
def json_loads (s : String) : Option PyVal :=
  match jsonValue (s.data.length + 1) (jsonWs s.data) with
  | some (v, r) => if jsonWs r = [] then some v else Option.none
  | Option.none => Option.none

example :
    json_loads "\x7b\"a\": [1, 2], \"b\": \"x\"\x7d" =
      some (PyVal.dict
        [("a", PyVal.list [PyVal.int 1, PyVal.int 2]), ("b", PyVal.str "x")]) := by
  rfl

example : json_loads "\x7b\"a\": 1,\x7d" = Option.none := by rfl

example : json_loads "[true, null, \"\\u0041\"]" =
    some (PyVal.list [PyVal.bool true, PyVal.none, PyVal.str "A"]) := by rfl

/-! ## Feed utilities (render_and_extract.py, lines 155-207) -/

/-- `html.escape` with the default `quote=True`.  The Python code replaces
`&` first and then the other four characters; since no replacement text
contains a character replaced later, this equals the character-wise map. -/
def htmlEscapeChar (c : Char) : List Char :=
  if c = '&' then "&amp;".data
  else if c = '<' then "&lt;".data
  else if c = '>' then "&gt;".data
  else if c = '"' then "&quot;".data
  else if c = '\'' then "&#x27;".data
  else [c]

def html_escape (s : String) : String :=
  String.mk (s.data.flatMap htmlEscapeChar)

/-- The canonical article record `{"url": ..., "title": ..., "brief": ...}`
produced by `normalize_items`. -/
structure Article where
  url : String
  title : String
  brief : String
deriving DecidableEq, Repr

/-- The list of raw records inside a parsed structure (normalize_items,
lines 180-195): a list is used directly; a dict is probed at `items`,
`contents`, `articles`, then at its first list-valued key; anything else
gives no records. -/
def dataItems (raw : PyVal) : List PyVal :=
  match raw with
  | PyVal.list xs => xs
  | PyVal.dict d =>
    (match pyGet d "items" with
     | PyVal.list xs => xs
     | _ =>
       match pyGet d "contents" with
       | PyVal.list xs => xs
       | _ =>
         match pyGet d "articles" with
         | PyVal.list xs => xs
         | _ =>
           match d.find? (fun p => match p.2 with
             | PyVal.list _ => true
             | _ => false) with
           | some p =>
             (match p.2 with
              | PyVal.list xs => xs
              | _ => [])
           | Option.none => [])
  | _ => []

/-- `i.get("URL") or i.get("url") or i.get("link") or i.get("href") or
i.get("path")` (left-associated, as Python parses it). -/
def resolveUrl (d : List (String × PyVal)) : PyVal :=
  pyOr (pyOr (pyOr (pyOr (pyGet d "URL") (pyGet d "url")) (pyGet d "link"))
    (pyGet d "href")) (pyGet d "path")

/-- `i.get("Heading") or i.get("title") or i.get("heading") or
i.get("name") or i.get("headline")`. -/
def resolveTitle (d : List (String × PyVal)) : PyVal :=
  pyOr (pyOr (pyOr (pyOr (pyGet d "Heading") (pyGet d "title"))
    (pyGet d "heading")) (pyGet d "name")) (pyGet d "headline")

/-- `i.get("Brief") or i.get("brief") or i.get("summary") or
i.get("excerpt") or i.get("snippet") or ""`. -/
def resolveBrief (d : List (String × PyVal)) : PyVal :=
  pyOr (pyOr (pyOr (pyOr (pyOr (pyGet d "Brief") (pyGet d "brief"))
    (pyGet d "summary")) (pyGet d "excerpt")) (pyGet d "snippet"))
    (PyVal.str "")

/-- One iteration of the `normalize_items` loop: non-dicts are skipped, a
falsy resolved url skips the record (`if not url: continue`), otherwise
the stripped string forms are emitted. -/
def normItem (i : PyVal) : Option Article :=
  match i with
  | PyVal.dict d =>
    let url := resolveUrl d
    let title := resolveTitle d
    let brief := resolveBrief d
    if pyTruthy url then
      some ⟨pyStrip (pyStr url),
            pyStrip (pyStr (pyOr title (PyVal.str ""))),
            pyStrip (pyStr (pyOr brief (PyVal.str "")))⟩
    else Option.none
  | _ => Option.none

/-- `normalize_items(raw)` (lines 179-207). -/
def normalize_items (raw : PyVal) : List Article :=
  (dataItems raw).filterMap normItem

def MAX_ITEMS : Nat := 500

/-- The merge in `main` (lines 226-227): new items whose url is not among
the old guids, then placeholder entries for old guids with no matching
new item. -/
def mergeItems (new_items : List Article) (old_guids : List String) :
    List Article :=
  (new_items.filter (fun i => !(old_guids.contains i.url))) ++
  ((old_guids.filter (fun u => !(new_items.any (fun n => n.url = u)))).map
    (fun u => ({ url := u, title := "", brief := "" } : Article)))

/-- `build_rss(items)` (lines 162-177): title and description go raw into
CDATA sections; link and guid are `html.escape`d. -/
def build_rss (items : List Article) : String :=
  let head := "<?xml version=\"1.0\" encoding=\"UTF-8\"?>\n<rss version=\"2.0\">\n<channel>\n"
    ++ "<title>DhakaPost Opinion Feed</title>\n<link>https://www.dhakapost.com/opinion</link>\n<description>Generated</description>\n"
  let tail := "\n</channel>\n</rss>\n"
  let body := items.foldl (fun acc i =>
    acc ++ "<item>\n"
      ++ "  <title><![CDATA[" ++ i.title ++ "]]></title>\n"
      ++ "  <link>" ++ html_escape i.url ++ "</link>\n"
      ++ "  <guid>" ++ html_escape i.url ++ "</guid>\n"
      ++ "  <description><![CDATA[" ++ i.brief ++ "]]></description>\n"
      ++ "</item>\n") ""
  head ++ body ++ tail

/-- `load_old_guids`: `re.finditer(r"<guid[^>]*>([\s\S]*?)</guid>", txt)`,
each group stripped.  The head `[^>]*>` necessarily ends at the first `>`
after `<guid`; the lazy group ends at the first `</guid>`.  When either is
missing no later occurrence can match (both requirements are for
substrings further right), so scanning stops. -/
def scanGuids : Nat → List Char → List String
  | 0, _ => []
  | fuel + 1, cs =>
    match pyFindL cs "<guid".data with
    | Option.none => []
    | some i =>
      let after := cs.drop (i + 5)
      match pyFindL after ['>'] with
      | Option.none => []
      | some j =>
        let content0 := after.drop (j + 1)
        match pyFindL content0 "</guid>".data with
        | Option.none => []
        | some k =>
          pyStrip (String.mk (content0.take k)) ::
            scanGuids fuel (content0.drop (k + 7))

def load_old_guids (txt : String) : List String :=
  scanGuids txt.data.length txt.data

example :
    load_old_guids "<x><guid isPermaLink=\"true\"> a </guid><guid>b</guid>" =
      ["a", "b"] := by decide

/-! ## `extract_json_like` (render_and_extract.py, lines 107-153) -/

/-- ASCII lowering, for the `re.IGNORECASE` script-tag patterns. -/
def asciiLower (c : Char) : Char :=
  if 'A' ≤ c ∧ c ≤ 'Z' then Char.ofNat (c.toNat + 32) else c

def lowerL (cs : List Char) : List Char := cs.map asciiLower

def extractLabels : List String :=
  ["initialContents", "initial_contents", "__INITIAL_STATE__",
   "window.__INITIAL_STATE__", "window.initialContents", "INITIAL_STATE"]

/-- One label attempt: find the label, the next `{`, the balanced span,
sanitize, parse. -/
def tryLabel (html : String) (label : String) : Option PyVal :=
  match pyFind html label with
  | Option.none => Option.none
  | some idx =>
    match pyFindFrom html "\x7b" idx with
    | Option.none => Option.none
    | some brace_idx =>
      match find_balanced_object html brace_idx with
      | Option.none => Option.none
      | some raw => json_loads (sanitize_js_object raw)

def tryLabels : List String → String → Option PyVal
  | [], _ => Option.none
  | l :: rest, html =>
    match tryLabel html l with
    | some v => some v
    | Option.none => tryLabels rest html

/-- `type=["']application/json["']` somewhere in an (already lowered)
`<script` head; the two character classes are independent, so mismatched
quotes also match. -/
def hasTypeAppJson (span : List Char) : Bool :=
  hasSub span "type=\"application/json\"".data ||
  hasSub span "type='application/json'".data ||
  hasSub span "type=\"application/json'".data ||
  hasSub span "type='application/json\"".data

/-- Contents of the `<script type="application/json">...</script>` blocks
(first regex fallback), in order.  On a `<script` whose head has no
closing `>` no later occurrence can match either; a missing `</script>`
makes the scan resume one character later, like `re.finditer`. -/
def scanAppJsonScripts : Nat → List Char → List (List Char)
  | 0, _ => []
  | fuel + 1, cs =>
    match pyFindL (lowerL cs) "<script".data with
    | Option.none => []
    | some i =>
      let after := cs.drop (i + 7)
      match pyFindL after ['>'] with
      | Option.none => []
      | some j =>
        if hasTypeAppJson (lowerL (after.take j)) then
          let content0 := after.drop (j + 1)
          match pyFindL (lowerL content0) "</script>".data with
          | Option.none => scanAppJsonScripts fuel (cs.drop (i + 1))
          | some k =>
            content0.take k :: scanAppJsonScripts fuel (content0.drop (k + 9))
        else scanAppJsonScripts fuel (cs.drop (i + 1))

/-- All `<script[^>]*>([\s\S]*?)</script>` blocks with the absolute offset
of each content group (second regex fallback). -/
def scanScripts : Nat → Nat → List Char → List (Nat × List Char)
  | 0, _, _ => []
  | fuel + 1, base, cs =>
    match pyFindL (lowerL cs) "<script".data with
    | Option.none => []
    | some i =>
      let after := cs.drop (i + 7)
      match pyFindL after ['>'] with
      | Option.none => []
      | some j =>
        let content0 := after.drop (j + 1)
        match pyFindL (lowerL content0) "</script>".data with
        | Option.none => scanScripts fuel (base + i + 1) (cs.drop (i + 1))
        | some k =>
          (base + i + 7 + j + 1, content0.take k) ::
            scanScripts fuel (base + i + 7 + j + 1 + k + 9)
              (content0.drop (k + 9))

/-- `[A-Za-z0-9_\$]` (the identifier class of the inner pattern). -/
def identChar (c : Char) : Bool :=
  ('A' ≤ c && c ≤ 'Z') || ('a' ≤ c && c ≤ 'z') ||
  ('0' ≤ c && c ≤ '9') || c = '_' || c = '$'

/-- Offsets of the `{` of each `identifier\s*[:=]\s*{` match inside a
script body.  The identifier run is maximal (no backtracking can help:
`\s`, `:`/`=` and identifier characters are disjoint), and after a
failed tail every suffix of the same run fails identically, so the scan
resumes after the run. -/
def scanIdentBrace : Nat → Nat → List Char → List Nat
  | 0, _, _ => []
  | fuel + 1, pos, cs =>
    match cs with
    | [] => []
    | c :: rest =>
      if identChar c then
        let run := 1 + (rest.takeWhile identChar).length
        let after := cs.drop run
        let ws1 := (after.takeWhile pyIsSpace).length
        match after.drop ws1 with
        | d :: tail =>
          if d = ':' ∨ d = '=' then
            let ws2 := (tail.takeWhile pyIsSpace).length
            match tail.drop ws2 with
            | '{' :: tail2 =>
              (pos + run + ws1 + 1 + ws2) ::
                scanIdentBrace fuel (pos + run + ws1 + 1 + ws2 + 1) tail2
            | _ => scanIdentBrace fuel (pos + run) after
          else scanIdentBrace fuel (pos + run) after
        | [] => []
      else scanIdentBrace fuel (pos + 1) rest

/-- First `application/json` script body that parses as JSON. -/
def tryParseList : List (List Char) → Option PyVal
  | [] => Option.none
  | c :: rest =>
    match json_loads (String.mk c) with
    | some v => some v
    | Option.none => tryParseList rest

/-- Third fallback: balanced object at each candidate brace offset (taken
in the whole html, as the source does), sanitized and parsed; first
success. -/
def tryScriptBraces (html : String) : List Nat → Option PyVal
  | [] => Option.none
  | p :: rest =>
    match find_balanced_object html p with
    | Option.none => tryScriptBraces html rest
    | some raw =>
      match json_loads (sanitize_js_object raw) with
      | some v => some v
      | Option.none => tryScriptBraces html rest

/-- `extract_json_like(html)`: label chain, then `application/json`
scripts, then `identifier : {` / `identifier = {` inside generic scripts. -/
def extract_json_like (html : String) : Option PyVal :=
  match tryLabels extractLabels html with
  | some v => some v
  | Option.none =>
    match tryParseList (scanAppJsonScripts html.data.length html.data) with
    | some v => some v
    | Option.none =>
      tryScriptBraces html
        ((scanScripts html.data.length 0 html.data).flatMap
          (fun p => (scanIdentBrace p.2.length 0 p.2).map (fun b => p.1 + b)))

/-- The pure core of `main` (lines 209-232): given the page html and the
optional previous feed text, the written feed content, or `none` when the
run aborts (`if not html: sys.exit(1)`). -/
def mainCore (html : String) (feedFile : Option String) : Option String :=
  if html = "" then Option.none
  else
    let raw :=
      match extract_json_like html with
      | some v => if pyTruthy v then v else PyVal.dict []
      | Option.none => PyVal.dict []
    let new_items := normalize_items raw
    let old_guids :=
      match feedFile with
      | some txt => load_old_guids txt
      | Option.none => []
    let merged := mergeItems new_items old_guids
    some (build_rss (merged.take MAX_ITEMS))

example :
    extract_json_like "<script>var initialContents = \x7b\"items\": []\x7d;</script>" =
      some (PyVal.dict [("items", PyVal.list [])]) := by rfl

example : extract_json_like "<html></html>" = Option.none := by rfl

/-! ## Dates (generate_rss.py, lines 159-193)

`datetime` is modelled by `DT`; `strftime('%a, %d %b %Y %H:%M:%S +0600')`
by `strftime_rfc` with the weekday computed by Zeller's congruence. -/

structure DT where
  year : Int
  month : Int
  day : Int
  hour : Int
  minute : Int
  second : Int
deriving DecidableEq, Repr

/-- Zeller's congruence: 0 = Saturday, 1 = Sunday, 2 = Monday, ... -/
def zellerH (y m d : Int) : Int :=
  let m2 := if m ≤ 2 then m + 12 else m
  let y2 := if m ≤ 2 then y - 1 else y
  let K := y2 % 100
  let J := y2 / 100
  (d + (13 * (m2 + 1)) / 5 + K + K / 4 + J / 4 + 5 * J) % 7

def weekdayAbbr (y m d : Int) : String :=
  ["Sat", "Sun", "Mon", "Tue", "Wed", "Thu", "Fri"].getD (zellerH y m d).toNat "Sat"

def monthAbbr (m : Int) : String :=
  ["Jan", "Feb", "Mar", "Apr", "May", "Jun", "Jul", "Aug", "Sep", "Oct",
   "Nov", "Dec"].getD (m - 1).toNat "Jan"

def pad2 (n : Int) : String :=
  if 0 ≤ n ∧ n < 10 then "0" ++ toString n else toString n

def pad4 (n : Int) : String :=
  if 0 ≤ n ∧ n < 10 then "000" ++ toString n
  else if 0 ≤ n ∧ n < 100 then "00" ++ toString n
  else if 0 ≤ n ∧ n < 1000 then "0" ++ toString n
  else toString n

/-- `dt.strftime('%a, %d %b %Y %H:%M:%S +0600')`. -/
def strftime_rfc (dt : DT) : String :=
  weekdayAbbr dt.year dt.month dt.day ++ ", " ++ pad2 dt.day ++ " " ++
  monthAbbr dt.month ++ " " ++ pad4 dt.year ++ " " ++ pad2 dt.hour ++ ":" ++
  pad2 dt.minute ++ ":" ++ pad2 dt.second ++ " +0600"

def isLeap (y : Int) : Bool := y % 4 = 0 ∧ (y % 100 ≠ 0 ∨ y % 400 = 0)

def daysInMonth (y m : Int) : Int :=
  if m = 2 then (if isLeap y then 29 else 28)
  else if m = 4 ∨ m = 6 ∨ m = 9 ∨ m = 11 then 30
  else 31

/-- The range checks of the `datetime(year, month, day, hour, minute)`
constructor (seconds are 0 here). -/
def validDT (y m d h mi : Int) : Bool :=
  1 ≤ y && y ≤ 9999 && 1 ≤ m && m ≤ 12 && 1 ≤ d && d ≤ daysInMonth y m &&
  0 ≤ h && h < 24 && 0 ≤ mi && mi < 60

def bangla_months : List (String × Int) :=
  [("জানুয়ারি", 1),
   ("ফেব্রুয়ারি", 2),
   ("মার্চ", 3),
   ("এপ্রিল", 4),
   ("মে", 5),
   ("জুন", 6),
   ("জুলাই", 7),
   ("আগস্ট", 8),
   ("সেপ্টেম্বর", 9),
   ("অক্টোবর", 10),
   ("নভেম্বর", 11),
   ("ডিসেম্বর", 12)]

def bangla_digits : List (Char × Char) :=
  [('০', '0'), ('১', '1'), ('২', '2'), ('৩', '3'), ('৪', '4'), ('৫', '5'), ('৬', '6'), ('৭', '7'), ('৮', '8'), ('৯', '9')]

/-- `parse_bangla_date(self, bangla_date)` on an actual string.  Every
failure of the `try` body (too few components, `int()` errors, out of
range `datetime`) falls back to `now` formatted the same way. -/
def parse_bangla_date_str (now : DT) (bangla_date : String) : String :=
  let english := bangla_digits.foldl
    (fun s p => s.map (fun c => if c = p.1 then p.2 else c)) bangla_date.data
  match pySplitChar ',' english with
  | [] => strftime_rfc now
  | p0 :: ptail =>
    let date_part := pyStripL p0
    let time_part :=
      match ptail with
      | p1 :: _ => pyStripL p1
      | [] => "00:00".data
    match pySplitWs date_part with
    | d0 :: m0 :: y0 :: _ =>
      (match pyInt (String.mk d0), pyInt (String.mk y0) with
       | some day, some year =>
         let month : Int :=
           match bangla_months.find? (fun p => p.1 = String.mk m0) with
           | some p => p.2
           | Option.none => 1
         (match pySplitChar ':' time_part with
          | t0 :: ttail =>
            (match pyInt (String.mk t0) with
             | some hour =>
               let minuteO :=
                 match ttail with
                 | t1 :: _ => pyInt (String.mk t1)
                 | [] => some 0
               (match minuteO with
                | some minute =>
                  if validDT year month day hour minute then
                    strftime_rfc (DT.mk year month day hour minute 0)
                  else strftime_rfc now
                | Option.none => strftime_rfc now)
             | Option.none => strftime_rfc now)
          | [] => strftime_rfc now)
       | _, _ => strftime_rfc now)
    | _ => strftime_rfc now

/-- `parse_bangla_date` as called from the item loop: a non-string
argument fails on `.replace` inside the `try` and falls back to `now`. -/
def parse_bangla_date (now : DT) (v : PyVal) : String :=
  match v with
  | PyVal.str s => parse_bangla_date_str now s
  | _ => strftime_rfc now

/-! ## RSS serializer (generate_rss.py, lines 195-267) -/

/-- `escape_xml(text)`: falsy text gives `''`, otherwise
`html.escape(str(text))`. -/
def escape_xml (v : PyVal) : String :=
  if pyTruthy v then html_escape (pyStr v) else ""

/-- Python iteration over the value `extract_articles` can return: list
elements, dict keys, or string characters.  (Non-iterables would raise,
but `extract_articles` never produces one.) -/
def pyIter : PyVal → List PyVal
  | PyVal.list xs => xs
  | PyVal.dict d => d.map (fun p => PyVal.str p.1)
  | PyVal.str s => s.data.map (fun c => PyVal.str (String.mk [c]))
  | _ => []

/-- One iteration of the article loop in `generate_rss` (lines 221-259).
A non-dict article raises on `.get` and is skipped by the
`except ... continue`; so is a non-string `Heading` when a truthy
`Subheading` makes `title += ...` a `TypeError`. -/
def genItemLines (now : DT) (article : PyVal) : List String :=
  match article with
  | PyVal.dict a =>
    let t0 := pyGetD a "Heading" (PyVal.str "No Title")
    let sub := pyGet a "Subheading"
    let titleV : Option PyVal :=
      if pyTruthy sub then
        match t0 with
        | PyVal.str t => some (PyVal.str (t ++ " | " ++ pyStr sub))
        | _ => Option.none
      else some t0
    (match titleV with
     | Option.none => []
     | some title =>
       let link := pyGetD a "URL" (PyVal.str "")
       let description := pyGetD a "Brief" (PyVal.str "")
       let pub_date := parse_bangla_date now (pyGetD a "CreatedAtBangla" (PyVal.str ""))
       let image_url := pyGetD a "ImagePathMd" (PyVal.str "")
       let content_html :=
         (if pyTruthy image_url then
           "<img src=\"" ++ pyStr image_url ++ "\" alt=\"" ++ escape_xml title
             ++ "\" /><br/><br/>"
          else "") ++ escape_xml description
       ["    <item>",
        "      <title>" ++ escape_xml title ++ "</title>",
        "      <link>" ++ escape_xml link ++ "</link>",
        "      <description>" ++ escape_xml description ++ "</description>",
        "      <guid isPermaLink=\"true\">" ++ escape_xml link ++ "</guid>",
        "      <pubDate>" ++ pub_date ++ "</pubDate>",
        "      <category>Opinion</category>",
        "      <dc:creator>Dhaka Post</dc:creator>"] ++
       (if pyTruthy image_url then
         ["      <enclosure url=\"" ++ escape_xml image_url
            ++ "\" type=\"image/jpeg\" length=\"0\"/>"]
        else []) ++
       ["      <content:encoded><![CDATA[" ++ content_html ++ "]]></content:encoded>",
        "    </item>",
        ""])
  | _ => []

/-- `generate_rss(articles)` as the list of lines later joined with
newlines; `now` feeds `lastBuildDate` and the date fallback. -/
def generate_rss_lines (now : DT) (articles : PyVal) : List String :=
  (["<?xml version=\"1.0\" encoding=\"UTF-8\"?>",
    "<rss version=\"2.0\" xmlns:atom=\"http://www.w3.org/2005/Atom\" xmlns:dc=\"http://purl.org/dc/elements/1.1/\" xmlns:content=\"http://purl.org/rss/1.0/modules/content/\">",
    "  <channel>",
    "    <title>Dhaka Post - Opinion</title>",
    "    <link>https://www.dhakapost.com/opinion</link>",
    "    <description>Latest opinion articles from Dhaka Post</description>",
    "    <language>bn</language>",
    "    <lastBuildDate>" ++ strftime_rfc now ++ "</lastBuildDate>",
    "    <generator>Dhaka Post RSS Generator</generator>",
    ""] ++
   (pyIter articles).flatMap (genItemLines now)) ++
  ["  </channel>", "</rss>"]

def generate_rss (now : DT) (articles : PyVal) : String :=
  "\n".intercalate (generate_rss_lines now articles)

/-! ## `extract_articles` (generate_rss.py, lines 32-157) -/

/-- `re.search(r'\]\s*<', window)`: returns `match.end()` (offset just
after the `<`) of the leftmost match. -/
def findBrWsLt : Nat → List Char → Option Nat
  | _, [] => Option.none
  | pos, c :: rest =>
    if c = ']' then
      let w := (rest.takeWhile pyIsSpace).length
      match rest.drop w with
      | '<' :: _ => some (pos + 1 + w + 1)
      | _ => findBrWsLt (pos + 1) rest
    else findBrWsLt (pos + 1) rest

/-- `re.search(r'\]\s*var\s+', window)`: `match.end()` of the leftmost
match (the `\s+` run is maximal). -/
def findBrWsVar : Nat → List Char → Option Nat
  | _, [] => Option.none
  | pos, c :: rest =>
    if c = ']' then
      let w := (rest.takeWhile pyIsSpace).length
      match rest.drop w with
      | 'v' :: 'a' :: 'r' :: t2 =>
        let w2 := (t2.takeWhile pyIsSpace).length
        if w2 = 0 then findBrWsVar (pos + 1) rest
        else some (pos + 1 + w + 3 + w2)
      | _ => findBrWsVar (pos + 1) rest
    else findBrWsVar (pos + 1) rest

/-- The bracket-counting fallback loop (lines 93-120): `count` both `[`/`{`
and `]`/`}` outside strings, `"` toggles the string flag, a backslash
makes the next character inert.  Returns the exclusive end index. -/
def bcScan : Int → Bool → Bool → Nat → List Char → Option Nat
  | _, _, _, _, [] => Option.none
  | count, in_string, escape_next, i, c :: rest =>
    if escape_next then bcScan count in_string false (i + 1) rest
    else if c = '\\' then bcScan count in_string true (i + 1) rest
    else if c = '"' then bcScan count (!in_string) escape_next (i + 1) rest
    else if !in_string then
      if c = '[' ∨ c = '{' then bcScan (count + 1) in_string escape_next (i + 1) rest
      else if c = ']' ∨ c = '}' then
        (if count - 1 = 0 then some (i + 1)
         else bcScan (count - 1) in_string escape_next (i + 1) rest)
      else bcScan count in_string escape_next (i + 1) rest
    else bcScan count in_string escape_next (i + 1) rest

/-- `extract_articles(html_content)`: locate `initialContents`, the next
`[`, find the array's end by the three termination patterns and then by
bracket counting (all within a 50000-char window), parse, and truncate to
`max_articles` (a parsed dict of more than 500 keys dies on slicing,
caught by the outer handler; a parsed string slices fine). -/
def extract_articles (html_content : String) : PyVal :=
  match pyFind html_content "initialContents" with
  | Option.none => PyVal.list []
  | some idx =>
    match pyFindFrom html_content "[" idx with
    | Option.none => PyVal.list []
    | some start =>
      let snippet := pyStripL ((html_content.data.drop start).take 50)
      if !(startsWithL snippet ['[']) then PyVal.list []
      else
        let window := (html_content.data.drop start).take 50000
        let endAbs : Option Nat :=
          match pyFindL window "];".data with
          | some i => some (start + i + 1)
          | Option.none =>
            match findBrWsLt 0 window with
            | some e => some (start + e - 1)
            | Option.none =>
              match findBrWsVar 0 window with
              | some e => some (start + e - 1)
              | Option.none =>
                match bcScan 0 false false start window with
                | some e => if start < e then some e else Option.none
                | Option.none => Option.none
        match endAbs with
        | Option.none => PyVal.list []
        | some e =>
          let json_str := String.mk ((html_content.data.drop start).take (e - start))
          match json_loads json_str with
          | Option.none => PyVal.list []
          | some (PyVal.list l) =>
            if l.length > 500 then PyVal.list (l.take 500) else PyVal.list l
          | some (PyVal.dict d) =>
            if d.length > 500 then PyVal.list [] else PyVal.dict d
          | some (PyVal.str s) =>
            if s.length > 500 then PyVal.str (String.mk (s.data.take 500))
            else PyVal.str s
          | some _ => PyVal.list []

/-- The control flow of `update_feed` (lines 269-305): `(succeeded,
written feed content)`.  A missing/empty html read fails; an empty
(falsy) article extraction fails; both without writing anything. -/
def update_feedCore (now : DT) (html_content : Option String) :
    Bool × Option String :=
  match html_content with
  | Option.none => (false, Option.none)
  | some h =>
    if h = "" then (false, Option.none)
    else
      let articles := extract_articles h
      if !(pyTruthy articles) then (false, Option.none)
      else (true, some (generate_rss now articles))

example :
    parse_bangla_date_str (DT.mk 2020 1 1 0 0 0) "৮ ডিসেম্বর ২০২৫, ০৯:১০" =
      "Mon, 08 Dec 2025 09:10:00 +0600" := by rfl

example : update_feedCore (DT.mk 2020 1 1 0 0 0) (some "x") = (false, Option.none) := by
  rfl

/-! ## Correctness of the balanced-span scan (claim C3)

`Bal s` generates the bodies the scanner walks through without
returning: characters other than quotes and braces, well-formed quoted
runs (whose bodies may contain braces and brackets and use backslash
escapes), and balanced `{...}` groups.  Every well-formed JSON object
body is of this shape, with strings allowed to contain any delimiter
characters. -/

inductive StrBody (q : Char) : List Char → Prop where
  | done : StrBody q [q]
  | esc (c : Char) (rest : List Char) :
      StrBody q rest → StrBody q ('\\' :: c :: rest)
  | chr (c : Char) (rest : List Char) :
      c ≠ '\\' → c ≠ q → StrBody q rest → StrBody q (c :: rest)

inductive Bal : List Char → Prop where
  | nil : Bal []
  | chr (c : Char) (rest : List Char) :
      c ≠ '"' → c ≠ '\'' → c ≠ '{' → c ≠ '}' → Bal rest → Bal (c :: rest)
  | str (q : Char) (body rest : List Char) :
      q = '"' ∨ q = '\'' → StrBody q body → Bal rest → Bal (q :: (body ++ rest))
  | brace (inner rest : List Char) :
      Bal inner → Bal rest → Bal ('{' :: (inner ++ ('}' :: rest)))

theorem fbScan_str (q : Char) (hq : q ≠ '\\') :
    ∀ body, StrBody q body → ∀ (d : Int) (k : Nat) (rest : List Char),
      fbScan d (Option.some q) k (body ++ rest) =
        fbScan d Option.none (k + body.length) rest := by
  intro body h
  induction h with
  | done =>
    intro d k rest
    cases rest with
    | nil =>
      show fbScan d (Option.some q) k [q] = fbScan d Option.none (k + 1) []
      rw [fbScan.eq_2, if_neg hq, if_pos rfl]
    | cons x xs =>
      show fbScan d (Option.some q) k (q :: x :: xs) =
        fbScan d Option.none (k + 1) (x :: xs)
      rw [fbScan.eq_3, if_neg hq, if_pos rfl]
  | esc c rest2 _ ih =>
    intro d k rest
    show fbScan d (Option.some q) k ('\\' :: c :: (rest2 ++ rest)) =
      fbScan d Option.none (k + ('\\' :: c :: rest2).length) rest
    rw [fbScan.eq_3, if_pos rfl, ih]
    simp only [List.length_cons]
    have h5 : k + 2 + rest2.length = k + (rest2.length + 1 + 1) := by omega
    rw [h5]
  | chr c rest2 hc hcq _ ih =>
    intro d k rest
    show fbScan d (Option.some q) k (c :: (rest2 ++ rest)) =
      fbScan d Option.none (k + (c :: rest2).length) rest
    rcases h0 : rest2 ++ rest with _ | ⟨x, xs⟩
    · obtain ⟨rfl, rfl⟩ := List.append_eq_nil.mp h0
      simp [fbScan, hc, hcq]
    · rw [fbScan.eq_3, if_neg hc, if_neg hcq, ← h0, ih]
      simp only [List.length_cons]
      have h5 : k + 1 + rest2.length = k + (rest2.length + 1) := by omega
      rw [h5]

theorem fbScan_bal :
    ∀ s, Bal s → ∀ (d : Int), 1 ≤ d → ∀ (k : Nat) (rest : List Char),
      fbScan d Option.none k (s ++ rest) =
        fbScan d Option.none (k + s.length) rest := by
  intro s h
  induction h with
  | nil => intro d hd k rest; simp
  | chr c rest2 h1 h2 h3 h4 _ ih =>
    intro d hd k rest
    have hcq : ¬ (c = '"' ∨ c = '\'') := by
      intro hor; rcases hor with h | h
      · exact h1 h
      · exact h2 h
    show fbScan d Option.none k (c :: (rest2 ++ rest)) =
      fbScan d Option.none (k + (c :: rest2).length) rest
    rw [fbScan.eq_4, if_neg hcq, if_neg h3, if_neg h4, ih d hd]
    simp only [List.length_cons]
    have h5 : k + 1 + rest2.length = k + (rest2.length + 1) := by omega
    rw [h5]
  | str q body rest2 hq hbody _ ih =>
    intro d hd k rest
    have hq2 : q ≠ '\\' := by rcases hq with rfl | rfl <;> decide
    show fbScan d Option.none k (q :: (body ++ rest2 ++ rest)) =
      fbScan d Option.none (k + (q :: (body ++ rest2)).length) rest
    rw [fbScan.eq_4, if_pos hq, List.append_assoc,
      fbScan_str q hq2 body hbody, ih d hd]
    simp only [List.length_cons, List.length_append]
    have h5 : k + 1 + body.length + rest2.length =
        k + (body.length + rest2.length + 1) := by omega
    rw [h5]
  | brace inner rest2 _ _ ih1 ih2 =>
    intro d hd k rest
    have h1 : ¬ (('{' : Char) = '"' ∨ ('{' : Char) = '\'') := by decide
    have h2 : ¬ (('}' : Char) = '"' ∨ ('}' : Char) = '\'') := by decide
    have h3 : ('}' : Char) ≠ '{' := by decide
    have h4 : ¬ (d + 1 = 1) := by omega
    have hd1 : (1 : Int) ≤ d + 1 := by omega
    show fbScan d Option.none k ('{' :: (inner ++ ('}' :: rest2) ++ rest)) =
      fbScan d Option.none (k + ('{' :: (inner ++ ('}' :: rest2))).length) rest
    rw [fbScan.eq_4, if_neg h1, if_pos rfl, List.append_assoc,
      List.cons_append, ih1 (d + 1) hd1,
      fbScan.eq_4, if_neg h2, if_neg h3, if_pos rfl, if_neg h4]
    have hd2 : d + 1 - 1 = d := by omega
    rw [hd2, ih2 d hd]
    simp only [List.length_cons, List.length_append]
    have h5 : k + 1 + inner.length + 1 + rest2.length =
        k + (inner.length + (rest2.length + 1) + 1) := by omega
    rw [h5]
/-- When the located opening brace starts a span of balanced content
(`Bal`) closed by its matching brace, `find_balanced_object` returns
exactly that full span, whatever precedes and follows it. -/
theorem find_balanced_object_bal (pre inner rest : List Char) (h : Bal inner) :
    find_balanced_object (String.mk (pre ++ ('{' :: (inner ++ ('}' :: rest)))))
        pre.length =
      some (String.mk ('{' :: (inner ++ ['}']))) := by
  have hdrop : (String.mk (pre ++ ('{' :: (inner ++ ('}' :: rest))))).data.drop
      pre.length = '{' :: (inner ++ ('}' :: rest)) := List.drop_left pre _
  have h1 : ¬ (('{' : Char) = '"' ∨ ('{' : Char) = '\'') := by decide
  have h2 : ¬ (('}' : Char) = '"' ∨ ('}' : Char) = '\'') := by decide
  have h3 : ('}' : Char) ≠ '{' := by decide
  unfold find_balanced_object
  rw [hdrop]
  show (if ('{' : Char) = '{' then
      (fbScan 0 Option.none 0 ('{' :: (inner ++ ('}' :: rest)))).map
        (fun n => String.mk (('{' :: (inner ++ ('}' :: rest))).take n))
    else Option.none) = some (String.mk ('{' :: (inner ++ ['}'])))
  rw [if_pos rfl]
  rw [fbScan.eq_4, if_neg h1, if_pos rfl]
  have e1 : (0 : Int) + 1 = 1 := rfl
  have e2 : (0 : Nat) + 1 = 1 := rfl
  rw [e1, e2, fbScan_bal inner h 1 (by omega) 1 ('}' :: rest),
    fbScan.eq_4, if_neg h2, if_neg h3, if_pos rfl, if_pos rfl]
  rw [Option.map_some']
  congr 1
  have e3 : 1 + inner.length + 1 = (inner.length + 1) + 1 := by omega
  rw [e3, List.take_succ_cons]
  rw [List.take_append 1, show List.take 1 ('}' :: rest) = ['}'] from rfl]

/-! ## Helper lemmas for the claim theorems -/

theorem escape_xml_str (t : String) : escape_xml (PyVal.str t) = html_escape t := by
  by_cases h : t = ""
  · subst h; rfl
  · unfold escape_xml
    rw [if_pos (by simpa [pyTruthy] using h)]
    rfl

theorem mergeItems_nil (olds : List String) :
    mergeItems [] olds = olds.map (fun u => Article.mk u "" "") := by
  unfold mergeItems
  simp

/-- `normItem` on a dict, with the lets expanded. -/
theorem normItem_dict (d : List (String × PyVal)) :
    normItem (PyVal.dict d) =
      if pyTruthy (resolveUrl d) then
        some (Article.mk (pyStrip (pyStr (resolveUrl d)))
          (pyStrip (pyStr (pyOr (resolveTitle d) (PyVal.str ""))))
          (pyStrip (pyStr (pyOr (resolveBrief d) (PyVal.str "")))))
      else Option.none := rfl

theorem keepP_false_of_none (i : PyVal) :
    normItem i = Option.none →
    (match i with
     | PyVal.dict d => pyTruthy (resolveUrl d)
     | _ => false) = false := by
  intro h
  cases i with
  | dict d =>
    rw [normItem_dict] at h
    by_cases hu : pyTruthy (resolveUrl d)
    · rw [if_pos hu] at h; exact absurd h (by simp)
    · simpa using hu
  | none => rfl
  | bool b => rfl
  | int n => rfl
  | float m e => rfl
  | str s => rfl
  | list xs => rfl

theorem pyOr_of_false (a b : PyVal) (h : pyTruthy a = false) :
    pyOr a b = b := by
  unfold pyOr
  rw [h]
  simp

theorem pyOr_of_true (a b : PyVal) (h : pyTruthy a = true) :
    pyOr a b = a := by
  unfold pyOr
  rw [h]
  simp

/-- `build_rss` on a single item, unfolded exactly as the definition
associates it. -/
theorem build_rss_single (a : Article) :
    build_rss [a] =
      "<?xml version=\"1.0\" encoding=\"UTF-8\"?>\n<rss version=\"2.0\">\n<channel>\n"
        ++ "<title>DhakaPost Opinion Feed</title>\n<link>https://www.dhakapost.com/opinion</link>\n<description>Generated</description>\n"
        ++ ("" ++ "<item>\n"
          ++ "  <title><![CDATA[" ++ a.title ++ "]]></title>\n"
          ++ "  <link>" ++ html_escape a.url ++ "</link>\n"
          ++ "  <guid>" ++ html_escape a.url ++ "</guid>\n"
          ++ "  <description><![CDATA[" ++ a.brief ++ "]]></description>\n"
          ++ "</item>\n")
        ++ "\n</channel>\n</rss>\n" := rfl

/-! ## Claim theorems -/

/-- Claim C1, counterexample: with prior GUIDs [A, B] and new articles
[{url B}, {url C}], the merged list the code builds is exactly
[C-article, A-placeholder] — two entries, and no entry carries url B, so
the list does not contain the three entries {B, C, A} the claim
describes. -/
theorem C1_counterexample :
    mergeItems [Article.mk "B" "tB" "bB", Article.mk "C" "tC" "bC"] ["A", "B"] =
      [Article.mk "C" "tC" "bC", Article.mk "A" "" ""] ∧
    ¬ ∃ a ∈ mergeItems [Article.mk "B" "tB" "bB", Article.mk "C" "tC" "bC"]
        ["A", "B"], a.url = "B" := by
  exact ⟨rfl, by decide⟩

/-- Claim C1, amended: for pairwise distinct urls a, b, c, merging new
articles [{url b}, {url c}] against prior GUIDs [a, b] yields
[c-article-with-full-content, a-placeholder]: the new-but-unseen article
first, then the retained old identifier as a placeholder with empty
title and brief — while b, present both in the prior GUIDs and among the
new articles, is dropped from the merge entirely (filtered from the new
half as already seen, and skipped in the placeholder half because a new
article matches it). -/
theorem C1_amended (a b c tB bB tC bC : String)
    (hab : a ≠ b) (hac : a ≠ c) (hbc : b ≠ c) :
    mergeItems [Article.mk b tB bB, Article.mk c tC bC] [a, b] =
      [Article.mk c tC bC, Article.mk a "" ""] := by
  unfold mergeItems
  simp [hab, hac, hbc, Ne.symm hab, Ne.symm hac, Ne.symm hbc]

/-- Witness for C1_amended at concrete urls. -/
theorem C1_amended_witness :
    mergeItems [Article.mk "B2" "tB" "bB", Article.mk "C2" "tC" "bC"]
      ["A2", "B2"] =
      [Article.mk "C2" "tC" "bC", Article.mk "A2" "" ""] :=
  C1_amended "A2" "B2" "C2" "tB" "bB" "tC" "bC" (by decide) (by decide)
    (by decide)

/-- Claim C2, counterexample: the input is a JS-object-literal (indeed
valid JSON) whose only string value contains `//`; the line-comment pass
deletes from the `//` inside the string literal to the end, so the
sanitizer output is a corrupted prefix that no longer parses — the
comment-removal step altered characters inside a string literal. -/
theorem C2_counterexample :
    json_loads "\x7b\"a\": \"http://x\"\x7d" =
      some (PyVal.dict [("a", PyVal.str "http://x")]) ∧
    sanitize_js_object "\x7b\"a\": \"http://x\"\x7d" = "\x7b\"a\": \"http:" ∧
    json_loads (sanitize_js_object "\x7b\"a\": \"http://x\"\x7d") = Option.none :=
  ⟨rfl, rfl, rfl⟩

/-- Claim C2, amended: the sanitizer's rewrites are purely textual, with
no string-literal awareness.  On text in which no comment-opening pair,
no comma-whitespace-closing-bracket pattern and no single quote occurs
anywhere, the output is the input itself; and on inputs whose comment,
trailing-comma and single-quote syntax lies outside double-quoted
strings, the passes produce the cleaned double-quoted form, as the two
concrete conversions show.  When those character sequences occur inside
string literals, the passes corrupt them (see the counterexample). -/
theorem C2_amended :
    (∀ s : String, hasSub s.data ['/', '*'] = false →
      hasSub s.data ['/', '/'] = false → hasTrailPat s.data = false →
      s.data.contains '\'' = false → sanitize_js_object s = s) ∧
    sanitize_js_object "\x7b'a': 1,\x7d" = "\x7b\"a\": 1\x7d" ∧
    sanitize_js_object "\x7b/* c */\"a\" : 2, // x\n\x7d" = "\x7b\"a\" : 2\x7d" :=
  ⟨fun s h1 h2 h3 h4 => sanitize_js_object_id s h1 h2 h3 h4, by decide, by decide⟩

/-- Witness for C2_amended: a concrete pattern-free JSON text is
returned unchanged. -/
theorem C2_amended_witness :
    sanitize_js_object "\x7b\"a\": [1, 2]\x7d" = "\x7b\"a\": [1, 2]\x7d" :=
  C2_amended.1 "\x7b\"a\": [1, 2]\x7d" (by decide) (by decide) (by decide) (by decide)

/-- Claim C3, counterexample: the universal no-mis-termination claim
fails for generate_rss's `extract_articles`.  On an input whose string
value contains `];`, the textual end-pattern search (tried before the
string-aware bracket counting) matches inside the string literal, the
extracted prefix `[\x7b"a": "x]` fails to parse, and the extractor
returns the empty list — not the full balanced span, even though the
span starting at the located `[` is a well-formed array (it parses
intact on its own, third conjunct). -/
theorem C3_counterexample :
    extract_articles "var initialContents = [\x7b\"a\": \"x];y\"\x7d];" =
      PyVal.list [] ∧
    PyVal.list [] ≠ PyVal.list [PyVal.dict [("a", PyVal.str "x];y")]] ∧
    json_loads "[\x7b\"a\": \"x];y\"\x7d]" =
      some (PyVal.list [PyVal.dict [("a", PyVal.str "x];y")]]) :=
  ⟨rfl, by simp, rfl⟩

/-- Claim C3, amended: `find_balanced_object` never mis-terminates on a
closing delimiter inside a quoted string — whenever the located opening
brace starts a span of balanced content (`Bal`, which covers every
well-formed object body, string values with embedded `\x7b`, `\x7d`,
`[`, `]` characters included) closed by its matching brace, it returns
exactly that full span.  generate_rss's `extract_articles`, by
contrast, tries the textual end patterns first, and these can fire
inside string literals (see the counterexample); when they mis-fire
nowhere — the first `];` is the true array end (second conjunct), or no
pattern occurs in the window and the string-aware bracket-counting
fallback runs (third conjunct, embedded `]` inside a string value) — it
recovers the full array. -/
theorem C3_amended :
    (∀ pre inner rest, Bal inner →
      find_balanced_object
          (String.mk (pre ++ ('\x7b' :: (inner ++ ('\x7d' :: rest)))))
          pre.length =
        some (String.mk ('\x7b' :: (inner ++ ['\x7d'])))) ∧
    extract_articles "var initialContents = [\x7b\"a\": \"x]y\"\x7d];" =
      PyVal.list [PyVal.dict [("a", PyVal.str "x]y")]] ∧
    extract_articles "var initialContents = [\x7b\"a\": \"x]y\"\x7d]" =
      PyVal.list [PyVal.dict [("a", PyVal.str "x]y")]] :=
  ⟨fun pre inner rest h => find_balanced_object_bal pre inner rest h, rfl, rfl⟩

/-- Witness for C3_amended at the original claim's concrete input: the
span is the full object, not a prefix cut at the `\x7d` inside the
string value. -/
theorem C3_amended_witness :
    find_balanced_object "\x7b\"a\": \"x\x7dy\"\x7d" 0 = some "\x7b\"a\": \"x\x7dy\"\x7d" := by
  have s1 : StrBody '"' ['a', '"'] :=
    StrBody.chr 'a' ['"'] (by decide) (by decide) StrBody.done
  have s2 : StrBody '"' ['x', '}', 'y', '"'] :=
    StrBody.chr 'x' _ (by decide) (by decide)
      (StrBody.chr '}' _ (by decide) (by decide)
        (StrBody.chr 'y' _ (by decide) (by decide) StrBody.done))
  have b3 : Bal ['"', 'x', '}', 'y', '"'] :=
    Bal.str '"' ['x', '}', 'y', '"'] [] (Or.inl rfl) s2 Bal.nil
  have b2 : Bal [':', ' ', '"', 'x', '}', 'y', '"'] :=
    Bal.chr ':' _ (by decide) (by decide) (by decide) (by decide)
      (Bal.chr ' ' _ (by decide) (by decide) (by decide) (by decide) b3)
  have hb : Bal ['"', 'a', '"', ':', ' ', '"', 'x', '}', 'y', '"'] :=
    Bal.str '"' ['a', '"'] [':', ' ', '"', 'x', '}', 'y', '"'] (Or.inl rfl) s1 b2
  exact C3_amended.1 []
    ['"', 'a', '"', ':', ' ', '"', 'x', '}', 'y', '"'] [] hb

/-- Claim C4, counterexample: in the generate_rss pipeline, an html text
with no extractable articles ("x") makes `update_feed` return failure
without writing any feed — the run aborts with no written feed, contrary
to the claim. -/
theorem C4_counterexample :
    update_feedCore (DT.mk 2020 1 1 0 0 0) (some "x") = (false, Option.none) :=
  rfl

/-- Claim C4, amended: in the render_and_extract pipeline, extraction
failure is a normal degraded outcome — for any non-empty html on which
`extract_json_like` yields nothing, `main` still writes a feed, rebuilt
entirely from the prior feed's GUIDs as placeholder entries (truncated
to the item cap).  In the generate_rss pipeline, by contrast, a
zero-article extraction aborts the run without writing a feed (see the
counterexample). -/
theorem C4_amended (html oldFeed : String)
    (hne : html ≠ "") (hext : extract_json_like html = Option.none) :
    mainCore html (some oldFeed) =
      some (build_rss (((load_old_guids oldFeed).map
        (fun u => Article.mk u "" "")).take MAX_ITEMS)) := by
  unfold mainCore
  rw [if_neg hne, hext]
  show some (build_rss ((mergeItems (normalize_items (PyVal.dict []))
    (load_old_guids oldFeed)).take MAX_ITEMS)) = _
  rw [show normalize_items (PyVal.dict []) = [] from rfl, mergeItems_nil]

/-- Witness for C4_amended on a concrete html with no embedded data and
a one-entry prior feed. -/
theorem C4_amended_witness :
    ("<html></html>" : String) ≠ "" ∧
    extract_json_like "<html></html>" = Option.none ∧
    mainCore "<html></html>" (some "<rss><guid>http://a</guid></rss>") =
      some (build_rss [Article.mk "http://a" "" ""]) := by
  refine ⟨by decide, rfl, ?_⟩
  rw [C4_amended "<html></html>" "<rss><guid>http://a</guid></rss>"
    (by decide) rfl]
  rfl

/-- Claim C5, counterexample: a record whose URL field holds only
whitespace is NOT dropped — `if not url` sees a truthy string, and the
record is kept with its url stripped to the empty string, so the output
record has an empty url. -/
theorem C5_counterexample :
    normalize_items (PyVal.list [PyVal.dict [("url", PyVal.str "   ")]]) =
      [Article.mk "" "" ""] ∧
    (normalize_items (PyVal.list
      [PyVal.dict [("url", PyVal.str "   ")]])).length ≠ 0 :=
  ⟨rfl, by decide⟩

/-- Claim C5, amended: the normalizer keeps exactly those raw records
that are mappings whose URL, resolved through the alias chain, is
truthy (non-empty before any stripping); all others are dropped.  Every
output record's url is the whitespace-stripped string of the resolved
value — which can be empty when the resolved URL was whitespace-only.
A 3-element input of mappings in which exactly one element has no truthy
URL under any alias yields exactly 2 output records (see the witness). -/
theorem C5_amended (items : List PyVal) :
    (normalize_items (PyVal.list items)).length =
      items.countP (fun i => match i with
        | PyVal.dict d => pyTruthy (resolveUrl d)
        | _ => false) ∧
    ∀ r ∈ normalize_items (PyVal.list items), ∃ d, PyVal.dict d ∈ items ∧
      pyTruthy (resolveUrl d) = true ∧
      r.url = pyStrip (pyStr (resolveUrl d)) := by
  show (items.filterMap normItem).length = _ ∧ ∀ r ∈ items.filterMap normItem, _
  induction items with
  | nil => exact ⟨rfl, by simp⟩
  | cons i t ih =>
    obtain ⟨ih1, ih2⟩ := ih
    rcases hni : normItem i with _ | a
    · rw [List.filterMap_cons_none hni]
      constructor
      · rw [List.countP_cons, keepP_false_of_none i hni, ih1]
        simp
      · intro r hr
        obtain ⟨d2, hd2, h3, h4⟩ := ih2 r hr
        exact ⟨d2, List.mem_cons_of_mem _ hd2, h3, h4⟩
    · have hi : ∃ d, i = PyVal.dict d ∧ pyTruthy (resolveUrl d) = true ∧
          a = Article.mk (pyStrip (pyStr (resolveUrl d)))
            (pyStrip (pyStr (pyOr (resolveTitle d) (PyVal.str ""))))
            (pyStrip (pyStr (pyOr (resolveBrief d) (PyVal.str "")))) := by
        cases i with
        | dict d =>
          rw [normItem_dict] at hni
          by_cases hu : pyTruthy (resolveUrl d)
          · rw [if_pos hu] at hni
            exact ⟨d, rfl, hu, (Option.some.inj hni).symm⟩
          · rw [if_neg hu] at hni; exact absurd hni (by simp)
        | none => exact absurd hni (by simp [normItem])
        | bool b => exact absurd hni (by simp [normItem])
        | int n => exact absurd hni (by simp [normItem])
        | float m e => exact absurd hni (by simp [normItem])
        | str s => exact absurd hni (by simp [normItem])
        | list xs => exact absurd hni (by simp [normItem])
      obtain ⟨d, rfl, hu, rfl⟩ := hi
      rw [List.filterMap_cons_some hni]
      constructor
      · simp [List.countP_cons, ih1, hu]
      · intro r hr
        rcases List.mem_cons.mp hr with rfl | h
        · exact ⟨d, List.mem_cons_self .., hu, rfl⟩
        · obtain ⟨d2, hd2, h3, h4⟩ := ih2 r h
          exact ⟨d2, List.mem_cons_of_mem _ hd2, h3, h4⟩

/-- Witness for C5_amended: a concrete 3-element input where one record
lacks a URL yields exactly 2 records, and the first output url is the
stripped resolved value. -/
theorem C5_amended_witness :
    (normalize_items (PyVal.list [PyVal.dict [("url", PyVal.str "u1")],
      PyVal.dict [("link", PyVal.str "u2")],
      PyVal.dict [("Heading", PyVal.str "t")]])).length = 2 ∧
    (∃ d, PyVal.dict d ∈ [PyVal.dict [("url", PyVal.str "u1")],
        PyVal.dict [("link", PyVal.str "u2")],
        PyVal.dict [("Heading", PyVal.str "t")]] ∧
      pyTruthy (resolveUrl d) = true ∧
      (Article.mk "u1" "" "").url = pyStrip (pyStr (resolveUrl d))) := by
  constructor
  · rw [(C5_amended _).1]; rfl
  · exact (C5_amended _).2 (Article.mk "u1" "" "") (by decide)

/-- Claim C6: the two spellings {"Heading": "T", "URL": "u", "Brief":
"b"} and {"title": "T", "link": "u", "summary": "b"} normalize to the
identical canonical record {url: "u", title: "T", brief: "b"}. -/
theorem C6_alias_resolution :
    normalize_items (PyVal.list [PyVal.dict [("Heading", PyVal.str "T"),
        ("URL", PyVal.str "u"), ("Brief", PyVal.str "b")]]) =
      [Article.mk "u" "T" "b"] ∧
    normalize_items (PyVal.list [PyVal.dict [("title", PyVal.str "T"),
        ("link", PyVal.str "u"), ("summary", PyVal.str "b")]]) =
      [Article.mk "u" "T" "b"] := ⟨rfl, rfl⟩

/-- Claim C7, counterexample: a valid strict JSON text whose string
value contains `//` is corrupted by the sanitizer into an unparseable
prefix, so sanitization does change (indeed destroys) the parsed
semantics of already-valid JSON. -/
theorem C7_counterexample :
    json_loads "\x7b\"u\": \"a//b\"\x7d" =
      some (PyVal.dict [("u", PyVal.str "a//b")]) ∧
    sanitize_js_object "\x7b\"u\": \"a//b\"\x7d" = "\x7b\"u\": \"a" ∧
    json_loads (sanitize_js_object "\x7b\"u\": \"a//b\"\x7d") = Option.none :=
  ⟨rfl, rfl, rfl⟩

/-- Claim C7, amended: sanitization leaves already-valid strict JSON
unchanged — hence preserves its parsed value — provided the text
contains no comment-opening pair, no comma-whitespace-closing-bracket
pattern and no single quote (in valid JSON such sequences can only occur
inside string literals, so this is exactly the string-literal proviso
forced by the counterexample). -/
theorem C7_amended (s : String) (v : PyVal) (hv : json_loads s = some v)
    (h1 : hasSub s.data ['/', '*'] = false)
    (h2 : hasSub s.data ['/', '/'] = false)
    (h3 : hasTrailPat s.data = false)
    (h4 : s.data.contains '\'' = false) :
    sanitize_js_object s = s ∧ json_loads (sanitize_js_object s) = some v := by
  have hid := sanitize_js_object_id s h1 h2 h3 h4
  exact ⟨hid, by rw [hid, hv]⟩

/-- Witness for C7_amended on a concrete valid JSON text. -/
theorem C7_amended_witness :
    sanitize_js_object "\x7b\"b\": [3]\x7d" = "\x7b\"b\": [3]\x7d" ∧
    json_loads (sanitize_js_object "\x7b\"b\": [3]\x7d") =
      some (PyVal.dict [("b", PyVal.list [PyVal.int 3])]) :=
  C7_amended "\x7b\"b\": [3]\x7d" (PyVal.dict [("b", PyVal.list [PyVal.int 3])]) rfl
    (by decide) (by decide) (by decide) (by decide)

set_option maxRecDepth 4096 in
/-- Claim C8: the Bangla date string converts to day 8, month 12
(December), year 2025, hour 9, minute 10, rendered exactly as
"Mon, 08 Dec 2025 09:10:00 +0600" — the weekday comes from the actual
calendar date (8 December 2025 is a Monday), independent of the current
time used only by the failure fallback. -/
theorem C8_bangla_date (now : DT) :
    parse_bangla_date_str now "৮ ডিসেম্বর ২০২৫, ০৯:১০" =
      "Mon, 08 Dec 2025 09:10:00 +0600" := rfl

set_option maxRecDepth 16384 in
/-- Claim C9, counterexample: in `generate_rss`, the CDATA-wrapped
content:encoded block holds the entity-ESCAPED description (a&amp;b),
not the raw text, so CDATA content is not passed through raw; and in
`build_rss`, a title containing `<` is emitted raw inside a CDATA title
node, with no entity escaping anywhere in the output. -/
theorem C9_counterexample :
    ("      <content:encoded><![CDATA[a&amp;b]]></content:encoded>" ∈
      generate_rss_lines (DT.mk 2025 1 1 0 0 0)
        (PyVal.list [PyVal.dict [("Brief", PyVal.str "a&b")]])) ∧
    ("      <content:encoded><![CDATA[a&b]]></content:encoded>" ∉
      generate_rss_lines (DT.mk 2025 1 1 0 0 0)
        (PyVal.list [PyVal.dict [("Brief", PyVal.str "a&b")]])) ∧
    hasSub (build_rss [Article.mk "u" "x<y" "br"]).data
      "<title><![CDATA[x<y]]></title>".data = true ∧
    hasSub (build_rss [Article.mk "u" "x<y" "br"]).data "&lt;".data = false := by
  exact ⟨by decide, by decide, by decide, by decide⟩

/-- Claim C9, amended, per serializer: `generate_rss` entity-escapes
title, link, description and guid, and its content:encoded CDATA block
carries the entity-escaped description (not the raw text); `build_rss`
entity-escapes link (and guid), while the title is emitted raw inside a
CDATA section rather than as an escaped text node. -/
theorem C9_amended (now : DT) (t u b : String) :
    (("      <title>" ++ html_escape t ++ "</title>") ∈
      generate_rss_lines now (PyVal.list [PyVal.dict [("Heading", PyVal.str t),
        ("URL", PyVal.str u), ("Brief", PyVal.str b)]]) ∧
    ("      <link>" ++ html_escape u ++ "</link>") ∈
      generate_rss_lines now (PyVal.list [PyVal.dict [("Heading", PyVal.str t),
        ("URL", PyVal.str u), ("Brief", PyVal.str b)]]) ∧
    ("      <description>" ++ html_escape b ++ "</description>") ∈
      generate_rss_lines now (PyVal.list [PyVal.dict [("Heading", PyVal.str t),
        ("URL", PyVal.str u), ("Brief", PyVal.str b)]]) ∧
    ("      <guid isPermaLink=\"true\">" ++ html_escape u ++ "</guid>") ∈
      generate_rss_lines now (PyVal.list [PyVal.dict [("Heading", PyVal.str t),
        ("URL", PyVal.str u), ("Brief", PyVal.str b)]]) ∧
    ("      <content:encoded><![CDATA[" ++ html_escape b ++
        "]]></content:encoded>") ∈
      generate_rss_lines now (PyVal.list [PyVal.dict [("Heading", PyVal.str t),
        ("URL", PyVal.str u), ("Brief", PyVal.str b)]])) ∧
    (("  <title><![CDATA[" ++ t ++ "]]></title>\n").data <:+:
      (build_rss [Article.mk u t b]).data ∧
    ("  <link>" ++ html_escape u ++ "</link>\n").data <:+:
      (build_rss [Article.mk u t b]).data) := by
  constructor
  · have hlines : generate_rss_lines now (PyVal.list [PyVal.dict
        [("Heading", PyVal.str t), ("URL", PyVal.str u),
         ("Brief", PyVal.str b)]]) =
      (["<?xml version=\"1.0\" encoding=\"UTF-8\"?>",
        "<rss version=\"2.0\" xmlns:atom=\"http://www.w3.org/2005/Atom\" xmlns:dc=\"http://purl.org/dc/elements/1.1/\" xmlns:content=\"http://purl.org/rss/1.0/modules/content/\">",
        "  <channel>",
        "    <title>Dhaka Post - Opinion</title>",
        "    <link>https://www.dhakapost.com/opinion</link>",
        "    <description>Latest opinion articles from Dhaka Post</description>",
        "    <language>bn</language>",
        "    <lastBuildDate>" ++ strftime_rfc now ++ "</lastBuildDate>",
        "    <generator>Dhaka Post RSS Generator</generator>",
        ""] ++
       (["    <item>",
         "      <title>" ++ escape_xml (PyVal.str t) ++ "</title>",
         "      <link>" ++ escape_xml (PyVal.str u) ++ "</link>",
         "      <description>" ++ escape_xml (PyVal.str b) ++ "</description>",
         "      <guid isPermaLink=\"true\">" ++ escape_xml (PyVal.str u) ++
           "</guid>",
         "      <pubDate>" ++ parse_bangla_date now (PyVal.str "") ++
           "</pubDate>",
         "      <category>Opinion</category>",
         "      <dc:creator>Dhaka Post</dc:creator>"] ++
        ["      <content:encoded><![CDATA[" ++
           ("" ++ escape_xml (PyVal.str b)) ++ "]]></content:encoded>",
         "    </item>",
         ""])) ++
      ["  </channel>", "</rss>"] := rfl
    rw [hlines, escape_xml_str, escape_xml_str, escape_xml_str]
    refine ⟨?_, ?_, ?_, ?_, ?_⟩ <;> simp
  · have hb := build_rss_single (Article.mk u t b)
    constructor
    · refine ⟨("<?xml version=\"1.0\" encoding=\"UTF-8\"?>\n<rss version=\"2.0\">\n<channel>\n" : String).data ++
        ("<title>DhakaPost Opinion Feed</title>\n<link>https://www.dhakapost.com/opinion</link>\n<description>Generated</description>\n" : String).data ++
        ("" : String).data ++ ("<item>\n" : String).data,
        ("  <link>" : String).data ++ (html_escape u).data ++
        ("</link>\n" : String).data ++
        ("  <guid>" : String).data ++ (html_escape u).data ++
        ("</guid>\n" : String).data ++
        ("  <description><![CDATA[" : String).data ++ b.data ++
        ("]]></description>\n" : String).data ++
        ("</item>\n" : String).data ++
        ("\n</channel>\n</rss>\n" : String).data, ?_⟩
      rw [hb]
      simp only [String.data_append, List.append_assoc]
    · refine ⟨("<?xml version=\"1.0\" encoding=\"UTF-8\"?>\n<rss version=\"2.0\">\n<channel>\n" : String).data ++
        ("<title>DhakaPost Opinion Feed</title>\n<link>https://www.dhakapost.com/opinion</link>\n<description>Generated</description>\n" : String).data ++
        ("" : String).data ++ ("<item>\n" : String).data ++
        ("  <title><![CDATA[" : String).data ++ t.data ++
        ("]]></title>\n" : String).data,
        ("  <guid>" : String).data ++ (html_escape u).data ++
        ("</guid>\n" : String).data ++
        ("  <description><![CDATA[" : String).data ++ b.data ++
        ("]]></description>\n" : String).data ++
        ("</item>\n" : String).data ++
        ("\n</channel>\n</rss>\n" : String).data, ?_⟩
      rw [hb]
      simp only [String.data_append, List.append_assoc]

/-- Claim C10: a URL alias holding a falsy value (empty string, None,
0, empty list) is passed over and resolution falls through to the next
alias: {"URL": falsy, "link": truthy w} resolves its url to w, and a
record whose URL-bearing aliases are all falsy is dropped. -/
theorem C10_falsy_alias (v w : PyVal)
    (hv : pyTruthy v = false) (hw : pyTruthy w = true) :
    normalize_items (PyVal.list [PyVal.dict [("URL", v), ("link", w)]]) =
      [Article.mk (pyStrip (pyStr w)) "" ""] ∧
    normalize_items (PyVal.list [PyVal.dict
      [("URL", v), ("link", v), ("href", v), ("path", v)]]) = [] := by
  have hres1 : resolveUrl [("URL", v), ("link", w)] = w := by
    show pyOr (pyOr (pyOr (pyOr v PyVal.none) w) PyVal.none) PyVal.none = w
    rw [pyOr_of_false v PyVal.none hv, pyOr_of_false PyVal.none w rfl,
      pyOr_of_true w PyVal.none hw, pyOr_of_true w PyVal.none hw]
  have hres2 : resolveUrl [("URL", v), ("link", v), ("href", v),
      ("path", v)] = v := by
    show pyOr (pyOr (pyOr (pyOr v PyVal.none) v) v) v = v
    rw [pyOr_of_false v PyVal.none hv, pyOr_of_false PyVal.none v rfl,
      pyOr_of_false v v hv, pyOr_of_false v v hv]
  constructor
  · have hn : normItem (PyVal.dict [("URL", v), ("link", w)]) =
        some (Article.mk (pyStrip (pyStr w)) "" "") := by
      rw [normItem_dict, hres1, if_pos hw]
      rfl
    show List.filterMap normItem [PyVal.dict [("URL", v), ("link", w)]] = _
    rw [List.filterMap_cons_some hn]
    rfl
  · have hn : normItem (PyVal.dict [("URL", v), ("link", v), ("href", v),
        ("path", v)]) = Option.none := by
      rw [normItem_dict, hres2, if_neg (by simp [hv])]
    show List.filterMap normItem [PyVal.dict [("URL", v), ("link", v),
      ("href", v), ("path", v)]] = _
    rw [List.filterMap_cons_none hn]
    rfl

/-- Witness for C10_falsy_alias: {"URL": "", "link": "x"} resolves to
url "x"; all-falsy aliases drop the record. -/
theorem C10_witness :
    normalize_items (PyVal.list [PyVal.dict
      [("URL", PyVal.str ""), ("link", PyVal.str "x")]]) =
      [Article.mk "x" "" ""] ∧
    normalize_items (PyVal.list [PyVal.dict [("URL", PyVal.str ""),
      ("link", PyVal.str ""), ("href", PyVal.str ""),
      ("path", PyVal.str "")]]) = [] := by
  have h := C10_falsy_alias (PyVal.str "") (PyVal.str "x") rfl rfl
  exact ⟨h.1.trans (by rfl), h.2⟩

end DP